import Mathlib

/-!
Verification of the Stellar HTLC escrow engine
(`contracts/stellar/stellar-htlc/contracts/htlc/src/lib.rs`).

The contract is shallowly embedded: byte strings are `List Nat`, addresses
are abstract (`Nat`), and the external capabilities the engine consumes
(clock, authorization, token balances, SHA-256, Keccak-256, XDR encoding of
addresses, the fixed native-token address) are fields of a `Ctx` record.
Each public operation is a pure function from a context and a store to an
`Except` result paired with the ordered trace of externally visible actions
it performed (authorization checks, persistent-record writes, token
transfers, event publications).  A panic in the source aborts the whole
call and the host reverts every prior write, so the resulting store of a
failed call is the original store; `runResult` encodes exactly that.
-/

namespace HTLC

/-- Byte strings (`Bytes` / `BytesN` in the source). -/
abbrev ByteStr := List Nat

/-- Abstract addresses (`Address` in the source). -/
abbrev Addr := Nat

/-- `HTLCStatus` from the source: resolution state of one escrow. -/
inductive HTLCStatus
  | Active
  | Withdrawn
  | Refunded
  deriving DecidableEq

/-- `HTLCData` from the source: the sole persisted entity. -/
structure HTLCData where
  contract_id : ByteStr
  sender : Addr
  receiver : Addr
  amount : Int
  token_address : Addr
  hashlock : ByteStr
  timelock : Nat
  timestamp : Nat
  safety_deposit : Int
  status : HTLCStatus
  locked : Bool
  deriving DecidableEq

/-- Error kinds.  The source signals failure with abort messages; the
constructors below name them after the source's `HTLCError` enum
(`InvalidSafetyDeposit` covers the "Invalid safety deposit" abort, which
has no enum member in the source).  The spec's taxonomy renames
`InvalidTimelock` to `InvalidDeadline`, `TimelockExpired` to
`DeadlineExpired`, `TimelockNotExpired` to `DeadlineNotExpired`,
`ContractAlreadyExists` to `AlreadyExists` and `ContractNotFound` to
`NotFound`. -/
inductive HTLCError
  | ContractAlreadyExists
  | ContractNotFound
  | InvalidPreimage
  | TimelockNotExpired
  | TimelockExpired
  | Unauthorized
  | InsufficientBalance
  | ReentrancyDetected
  | InvalidAmount
  | InvalidTimelock
  | InvalidSafetyDeposit
  | AlreadyWithdrawn
  | AlreadyRefunded
  deriving DecidableEq

/-- One externally visible action of the engine, in program order:
a `require_auth` call, a persistent-store write, a token transfer, or an
event publication. -/
inductive Action
  | requireAuth (a : Addr)
  | setRecord (id : ByteStr) (d : HTLCData)
  | transfer (src dst : Addr) (amt : Int)
  | publish (topic : String) (id : ByteStr)
  deriving DecidableEq

/-- The persistent store: a mapping from contract id to record
(`DataKey::HTLCData` keyed persistent storage in the source). -/
def Store := ByteStr → Option HTLCData

/-- The empty store. -/
def Store.empty : Store := fun _ => none

/-- Point update of the store. -/
def Store.set (s : Store) (id : ByteStr) (d : HTLCData) : Store :=
  fun k => if k = id then some d else s k

/-- Replay the store writes of a trace onto a store. -/
def applyActions (s : Store) : List Action → Store
  | [] => s
  | Action.setRecord id d :: rest => applyActions (s.set id d) rest
  | _ :: rest => applyActions s rest

/-- The external capabilities the engine consumes (spec section 6):
which principals the invoking context may act as, the ledger clock, native
token balances, the two hash functions, the XDR encoding of addresses, the
fixed native-token contract address, and the engine's own address. -/
structure Ctx where
  auth : Addr → Bool
  timestamp : Nat
  balance : Addr → Int
  sha256 : ByteStr → ByteStr
  keccak256 : ByteStr → ByteStr
  addrXdr : Addr → ByteStr
  nativeToken : Addr
  contractAddr : Addr

/-- Big-endian byte encoding of `n` in exactly `w` bytes. -/
def beBytes : Nat → Nat → ByteStr
  | 0, _ => []
  | w + 1, n => beBytes w (n / 256) ++ [n % 256]

/-- `u64::to_be_bytes`: 8 bytes, big-endian, reduced modulo 2^64. -/
def u64be (n : Nat) : ByteStr := beBytes 8 (n % 2 ^ 64)

/-- `i128::to_be_bytes`: 16 bytes, big-endian two's complement. -/
def i128be (a : Int) : ByteStr := beBytes 16 (a % (2 ^ 128 : Int)).toNat

/-- `HTLCContract::get_native_token_address`: the one fixed native XLM
token address (decoded in the source from a constant string; the decoding
itself is the external address-representation capability). -/
def get_native_token_address (c : Ctx) : Addr := c.nativeToken

/-- `HTLCContract::address_to_bytes32`: normalize an address to 32 bytes
by SHA-256 hashing its XDR encoding. -/
def address_to_bytes32 (c : Ctx) (a : Addr) : ByteStr :=
  c.sha256 (c.addrXdr a)

/-- `HTLCContract::generate_contract_id`: build `packed_data` by the
source's successive `extend_from_slice` calls, then Keccak-256 hash it. -/
def generate_contract_id (c : Ctx) (sender receiver : Addr) (amount : Int)
    (hashlock : ByteStr) (timelock timestamp : Nat) : ByteStr :=
  let sender_bytes := address_to_bytes32 c sender
  let receiver_bytes := address_to_bytes32 c receiver
  let packed0 : ByteStr := []
  let packed1 := packed0 ++ sender_bytes
  let packed2 := packed1 ++ receiver_bytes
  let packed3 := packed2 ++ i128be amount
  let packed4 := packed3 ++ hashlock
  let packed5 := packed4 ++ u64be timelock
  let packed6 := packed5 ++ u64be timestamp
  c.keccak256 packed6

/-- The identifier derivation as the spec words it: Keccak-256 over the
concatenation, in the order sender, receiver, amount, hashlock, deadline,
createdAt, of each principal normalized to 32 bytes by hashing its native
encoding, the integers as big-endian fixed-width bytes, and the hashlock
as-is. -/
def deriveIdSpec (c : Ctx) (sender receiver : Addr) (amount : Int)
    (hashlock : ByteStr) (deadline createdAt : Nat) : ByteStr :=
  c.keccak256 (c.sha256 (c.addrXdr sender) ++ c.sha256 (c.addrXdr receiver) ++
    i128be amount ++ hashlock ++ u64be deadline ++ u64be createdAt)

/-- `HTLCContract::get_htlc_data`: load a record, `ContractNotFound` when
absent. -/
def get_htlc_data (s : Store) (contract_id : ByteStr) : Option HTLCData :=
  s contract_id

/-- `HTLCContract::create_htlc`, check for check in source order. -/
def create_htlc (c : Ctx) (s : Store) (sender receiver : Addr)
    (amount : Int) (hashlock : ByteStr) (timelock : Nat)
    (safety_deposit : Int) : Except HTLCError ByteStr × List Action :=
  if c.auth sender then
    let tr0 := [Action.requireAuth sender]
    if amount ≤ 0 then (Except.error HTLCError.InvalidAmount, tr0)
    else if safety_deposit < 0 then
      (Except.error HTLCError.InvalidSafetyDeposit, tr0)
    else
      let current_timestamp := c.timestamp
      if timelock ≤ current_timestamp then
        (Except.error HTLCError.InvalidTimelock, tr0)
      else
        let contract_id := generate_contract_id c sender receiver amount
          hashlock timelock current_timestamp
        if (s contract_id).isSome then
          (Except.error HTLCError.ContractAlreadyExists, tr0)
        else
          let total_amount := amount + safety_deposit
          let sender_balance := c.balance sender
          if sender_balance < total_amount then
            (Except.error HTLCError.InsufficientBalance, tr0)
          else
            let native_token_address := get_native_token_address c
            let contract_address := c.contractAddr
            let htlc_data : HTLCData :=
              { contract_id := contract_id
                sender := sender
                receiver := receiver
                amount := amount
                token_address := native_token_address
                hashlock := hashlock
                timelock := timelock
                timestamp := current_timestamp
                safety_deposit := safety_deposit
                status := HTLCStatus.Active
                locked := false }
            (Except.ok contract_id,
              tr0 ++ [Action.transfer sender contract_address total_amount,
                Action.setRecord contract_id htlc_data,
                Action.publish "HTLCNew" contract_id])
  else (Except.error HTLCError.Unauthorized, [Action.requireAuth sender])

/-- `HTLCContract::withdraw`: reentrancy, authorization, status, timelock
and preimage checks in source order, then the locked write, the
transfer(s), the finalizing write and the event. -/
def withdraw (c : Ctx) (s : Store) (contract_id preimage : ByteStr) :
    Except HTLCError Unit × List Action :=
  match get_htlc_data s contract_id with
  | none => (Except.error HTLCError.ContractNotFound, [])
  | some htlc_data =>
    if htlc_data.locked then (Except.error HTLCError.ReentrancyDetected, [])
    else if c.auth htlc_data.receiver then
      let tr0 := [Action.requireAuth htlc_data.receiver]
      match htlc_data.status with
      | HTLCStatus.Withdrawn => (Except.error HTLCError.AlreadyWithdrawn, tr0)
      | HTLCStatus.Refunded => (Except.error HTLCError.AlreadyRefunded, tr0)
      | HTLCStatus.Active =>
        let current_timestamp := c.timestamp
        if htlc_data.timelock ≤ current_timestamp then
          (Except.error HTLCError.TimelockExpired, tr0)
        else if c.sha256 preimage ≠ htlc_data.hashlock then
          (Except.error HTLCError.InvalidPreimage, tr0)
        else
          let locked_data := { htlc_data with locked := true }
          let contract_address := c.contractAddr
          let final_data :=
            { locked_data with status := HTLCStatus.Withdrawn, locked := false }
          (Except.ok (),
            tr0 ++ [Action.setRecord contract_id locked_data,
              Action.transfer contract_address htlc_data.receiver
                htlc_data.amount] ++
            (if htlc_data.safety_deposit > 0 then
              [Action.transfer contract_address htlc_data.sender
                htlc_data.safety_deposit]
            else []) ++
            [Action.setRecord contract_id final_data,
              Action.publish "HTLCWithdraw" contract_id])
    else (Except.error HTLCError.Unauthorized,
      [Action.requireAuth htlc_data.receiver])

/-- `HTLCContract::refund`: reentrancy, authorization, status and timelock
checks in source order, then the locked write, the single combined
transfer, the finalizing write and the event. -/
def refund (c : Ctx) (s : Store) (contract_id : ByteStr) :
    Except HTLCError Unit × List Action :=
  match get_htlc_data s contract_id with
  | none => (Except.error HTLCError.ContractNotFound, [])
  | some htlc_data =>
    if htlc_data.locked then (Except.error HTLCError.ReentrancyDetected, [])
    else if c.auth htlc_data.sender then
      let tr0 := [Action.requireAuth htlc_data.sender]
      match htlc_data.status with
      | HTLCStatus.Withdrawn => (Except.error HTLCError.AlreadyWithdrawn, tr0)
      | HTLCStatus.Refunded => (Except.error HTLCError.AlreadyRefunded, tr0)
      | HTLCStatus.Active =>
        let current_timestamp := c.timestamp
        if current_timestamp < htlc_data.timelock then
          (Except.error HTLCError.TimelockNotExpired, tr0)
        else
          let locked_data := { htlc_data with locked := true }
          let contract_address := c.contractAddr
          let total_refund := htlc_data.amount + htlc_data.safety_deposit
          let final_data :=
            { locked_data with status := HTLCStatus.Refunded, locked := false }
          (Except.ok (),
            tr0 ++ [Action.setRecord contract_id locked_data,
              Action.transfer contract_address htlc_data.sender total_refund,
              Action.setRecord contract_id final_data,
              Action.publish "HTLCRefund" contract_id])
    else (Except.error HTLCError.Unauthorized,
      [Action.requireAuth htlc_data.sender])

/-- `HTLCContract::get_htlc`: read one record. -/
def get_htlc (s : Store) (contract_id : ByteStr) :
    Except HTLCError HTLCData × List Action :=
  match get_htlc_data s contract_id with
  | none => (Except.error HTLCError.ContractNotFound, [])
  | some d => (Except.ok d, [])

/-- `HTLCContract::contract_exists`. -/
def contract_exists (s : Store) (contract_id : ByteStr) :
    Bool × List Action :=
  ((s contract_id).isSome, [])

/-- `HTLCContract::get_status`. -/
def get_status (s : Store) (contract_id : ByteStr) :
    Except HTLCError HTLCStatus × List Action :=
  match get_htlc_data s contract_id with
  | none => (Except.error HTLCError.ContractNotFound, [])
  | some d => (Except.ok d.status, [])

/-- Host semantics of one call: the writes of the trace are committed only
when the call returns normally; an abort reverts everything. -/
def runResult {α : Type} (s : Store)
    (r : Except HTLCError α × List Action) : Store :=
  match r.1 with
  | Except.ok _ => applyActions s r.2
  | Except.error _ => s

/-- One mutating entry point of the engine, with its arguments. -/
inductive Op
  | create (sender receiver : Addr) (amount : Int) (hashlock : ByteStr)
      (timelock : Nat) (safety_deposit : Int)
  | withdraw (contract_id preimage : ByteStr)
  | refund (contract_id : ByteStr)

/-- The store an operation leaves behind. -/
def runOp (c : Ctx) (s : Store) : Op → Store
  | Op.create sender receiver amount hashlock timelock sd =>
    runResult s (create_htlc c s sender receiver amount hashlock timelock sd)
  | Op.withdraw contract_id preimage =>
    runResult s (withdraw c s contract_id preimage)
  | Op.refund contract_id =>
    runResult s (refund c s contract_id)

/-- Total value transferred out of engine custody in a trace. -/
def outTotal (c : Ctx) (tr : List Action) : Int :=
  (tr.map fun a => match a with
    | Action.transfer src _ amt => if src = c.contractAddr then amt else 0
    | _ => 0).sum

/-- The transfers of a trace, in order. -/
def transfersOf (tr : List Action) : List Action :=
  tr.filter fun a => match a with
    | Action.transfer _ _ _ => true
    | _ => false

/-- Whether a trace contains a persistent-store write. -/
def hasWrite (tr : List Action) : Bool :=
  tr.any fun a => match a with
    | Action.setRecord _ _ => true
    | _ => false

/-- Whether a trace contains a token transfer. -/
def hasTransfer (tr : List Action) : Bool :=
  tr.any fun a => match a with
    | Action.transfer _ _ _ => true
    | _ => false

/-- Whether a trace contains an event publication. -/
def hasEvent (tr : List Action) : Bool :=
  tr.any fun a => match a with
    | Action.publish _ _ => true
    | _ => false

/-! ## Shapes of successful calls -/

/-- The record `create_htlc` persists on success. -/
def createdRecord (c : Ctx) (i : ByteStr) (sender receiver : Addr)
    (amount : Int) (hashlock : ByteStr) (timelock : Nat) (sd : Int) :
    HTLCData :=
  { contract_id := i
    sender := sender
    receiver := receiver
    amount := amount
    token_address := get_native_token_address c
    hashlock := hashlock
    timelock := timelock
    timestamp := c.timestamp
    safety_deposit := sd
    status := HTLCStatus.Active
    locked := false }

/-- The record a successful `withdraw` leaves at rest. -/
def withdrawnRecord (d : HTLCData) : HTLCData :=
  { d with status := HTLCStatus.Withdrawn, locked := false }

/-- The record a successful `refund` leaves at rest. -/
def refundedRecord (d : HTLCData) : HTLCData :=
  { d with status := HTLCStatus.Refunded, locked := false }

/-- The action trace of a successful `create_htlc`. -/
def createTrace (c : Ctx) (i : ByteStr) (sender receiver : Addr)
    (amount : Int) (hashlock : ByteStr) (timelock : Nat) (sd : Int) :
    List Action :=
  [Action.requireAuth sender,
   Action.transfer sender c.contractAddr (amount + sd),
   Action.setRecord i (createdRecord c i sender receiver amount hashlock timelock sd),
   Action.publish "HTLCNew" i]

/-- The action trace of a successful `withdraw` on record `d`. -/
def withdrawTrace (c : Ctx) (cid : ByteStr) (d : HTLCData) : List Action :=
  [Action.requireAuth d.receiver,
   Action.setRecord cid { d with locked := true },
   Action.transfer c.contractAddr d.receiver d.amount] ++
  (if d.safety_deposit > 0 then
    [Action.transfer c.contractAddr d.sender d.safety_deposit]
  else []) ++
  [Action.setRecord cid (withdrawnRecord d),
   Action.publish "HTLCWithdraw" cid]

/-- The action trace of a successful `refund` on record `d`. -/
def refundTrace (c : Ctx) (cid : ByteStr) (d : HTLCData) : List Action :=
  [Action.requireAuth d.sender,
   Action.setRecord cid { d with locked := true },
   Action.transfer c.contractAddr d.sender (d.amount + d.safety_deposit),
   Action.setRecord cid (refundedRecord d),
   Action.publish "HTLCRefund" cid]

/-! ## Concrete sample data for witnesses -/

/-- A sample capability context: everyone is authorized, the clock reads
100, balances are ample, and the two hash functions are simple injective
stand-ins. -/
def ctx0 : Ctx :=
  { auth := fun _ => true
    timestamp := 100
    balance := fun _ => 1000000000000
    sha256 := fun l => 0 :: l
    keccak256 := fun l => l
    addrXdr := fun a => [a % 256]
    nativeToken := 7
    contractAddr := 9 }

/-- A sample Active record whose hashlock is `ctx0.sha256 [4]`. -/
def recActive : HTLCData :=
  { contract_id := [1]
    sender := 2
    receiver := 3
    amount := 50
    token_address := 7
    hashlock := [0, 4]
    timelock := 200
    timestamp := 90
    safety_deposit := 5
    status := HTLCStatus.Active
    locked := false }

/-- The sample record after resolution by withdraw. -/
def recW : HTLCData := { recActive with status := HTLCStatus.Withdrawn }

/-- The sample record after resolution by refund. -/
def recR : HTLCData := { recActive with status := HTLCStatus.Refunded }

/-- A store holding the sample Active record at id `[1]`. -/
def store1 : Store := Store.set Store.empty [1] recActive

/-- A store holding the sample Withdrawn record at id `[1]`. -/
def storeW : Store := Store.set Store.empty [1] recW

/-- A store holding the sample Refunded record at id `[1]`. -/
def storeR : Store := Store.set Store.empty [1] recR

/-- The sample context with the clock advanced past the deadline. -/
def ctx1 : Ctx := { ctx0 with timestamp := 250 }

/-- The sample record mid-transition (reentrancy guard raised). -/
def recL : HTLCData := { recActive with locked := true }

/-- A store holding the mid-transition sample record at id `[1]`. -/
def storeL : Store := Store.set Store.empty [1] recL

theorem runResult_error {α : Type} (s : Store)
    (r : Except HTLCError α × List Action) (e : HTLCError)
    (h : r.1 = Except.error e) : runResult s r = s := by
  unfold runResult
  rw [h]

theorem create_spec (c : Ctx) (s : Store) (sender receiver : Addr)
    (amount : Int) (hashlock : ByteStr) (timelock : Nat) (sd : Int)
    (hauth : c.auth sender = true) (hamt : 0 < amount) (hsd : 0 ≤ sd)
    (htl : c.timestamp < timelock)
    (hfresh : s (generate_contract_id c sender receiver amount hashlock
      timelock c.timestamp) = none)
    (hbal : amount + sd ≤ c.balance sender) :
    create_htlc c s sender receiver amount hashlock timelock sd =
      (Except.ok (generate_contract_id c sender receiver amount hashlock
        timelock c.timestamp),
       createTrace c (generate_contract_id c sender receiver amount hashlock
        timelock c.timestamp) sender receiver amount hashlock timelock sd) := by
  unfold create_htlc createTrace createdRecord
  rw [if_pos hauth, if_neg (by omega), if_neg (by omega),
    if_neg (Nat.not_le.mpr htl), if_neg (by simp [hfresh]),
    if_neg (by omega)]
  rfl

theorem create_ok_inv (c : Ctx) (s : Store) (sender receiver : Addr)
    (amount : Int) (hashlock : ByteStr) (timelock : Nat) (sd : Int)
    (i : ByteStr) (tr : List Action)
    (h : create_htlc c s sender receiver amount hashlock timelock sd =
      (Except.ok i, tr)) :
    c.auth sender = true ∧ 0 < amount ∧ 0 ≤ sd ∧ c.timestamp < timelock ∧
    i = generate_contract_id c sender receiver amount hashlock timelock
      c.timestamp ∧
    s i = none ∧ amount + sd ≤ c.balance sender ∧
    tr = createTrace c i sender receiver amount hashlock timelock sd := by
  unfold create_htlc at h
  by_cases hauth : c.auth sender = true
  · rw [if_pos hauth] at h
    by_cases h1 : amount ≤ 0
    · rw [if_pos h1] at h; simp at h
    · rw [if_neg h1] at h
      by_cases h2 : sd < 0
      · rw [if_pos h2] at h; simp at h
      · rw [if_neg h2] at h
        by_cases h3 : timelock ≤ c.timestamp
        · rw [if_pos h3] at h; simp at h
        · rw [if_neg h3] at h
          by_cases h4 : (s (generate_contract_id c sender receiver amount
              hashlock timelock c.timestamp)).isSome
          · rw [if_pos h4] at h; simp at h
          · rw [if_neg h4] at h
            by_cases h5 : c.balance sender < amount + sd
            · rw [if_pos h5] at h; simp at h
            · rw [if_neg h5] at h
              have hi : i = generate_contract_id c sender receiver amount
                  hashlock timelock c.timestamp := by
                have := congrArg Prod.fst h
                simp at this
                exact this.symm
              refine ⟨hauth, by omega, by omega, by omega, hi, ?_, by omega, ?_⟩
              · rw [hi]
                exact Option.not_isSome_iff_eq_none.mp h4
              · have := congrArg Prod.snd h
                simp at this
                rw [← this]
                unfold createTrace createdRecord
                rw [hi]
  · rw [if_neg hauth] at h
    simp at h

theorem withdraw_spec (c : Ctx) (s : Store) (cid pre : ByteStr)
    (d : HTLCData) (hd : s cid = some d) (hl : d.locked = false)
    (ha : c.auth d.receiver = true) (hst : d.status = HTLCStatus.Active)
    (ht : c.timestamp < d.timelock) (hh : c.sha256 pre = d.hashlock) :
    withdraw c s cid pre = (Except.ok (), withdrawTrace c cid d) := by
  simp [withdraw, get_htlc_data, hd, hl, ha, hst, Nat.not_le.mpr ht, hh,
    withdrawTrace, withdrawnRecord]

theorem refund_spec (c : Ctx) (s : Store) (cid : ByteStr)
    (d : HTLCData) (hd : s cid = some d) (hl : d.locked = false)
    (ha : c.auth d.sender = true) (hst : d.status = HTLCStatus.Active)
    (ht : d.timelock ≤ c.timestamp) :
    refund c s cid = (Except.ok (), refundTrace c cid d) := by
  simp [refund, get_htlc_data, hd, hl, ha, hst, Nat.not_lt.mpr ht,
    refundTrace, refundedRecord]

theorem withdraw_ok_inv (c : Ctx) (s : Store) (cid pre : ByteStr)
    (tr : List Action)
    (h : withdraw c s cid pre = (Except.ok (), tr)) :
    ∃ d, s cid = some d ∧ d.locked = false ∧ c.auth d.receiver = true ∧
      d.status = HTLCStatus.Active ∧ c.timestamp < d.timelock ∧
      c.sha256 pre = d.hashlock ∧ tr = withdrawTrace c cid d := by
  cases hd : s cid with
  | none => simp [withdraw, get_htlc_data, hd] at h
  | some d =>
    cases hl : d.locked with
    | true => simp [withdraw, get_htlc_data, hd, hl] at h
    | false =>
      by_cases ha : c.auth d.receiver = true
      · cases hst : d.status with
        | Withdrawn => simp [withdraw, get_htlc_data, hd, hl, ha, hst] at h
        | Refunded => simp [withdraw, get_htlc_data, hd, hl, ha, hst] at h
        | Active =>
          by_cases ht : d.timelock ≤ c.timestamp
          · simp [withdraw, get_htlc_data, hd, hl, ha, hst, ht] at h
          · by_cases hh : c.sha256 pre = d.hashlock
            · have hw := withdraw_spec c s cid pre d hd hl ha hst
                (by omega) hh
              rw [hw] at h
              refine ⟨d, rfl, hl, ha, hst, by omega, hh, ?_⟩
              have := congrArg Prod.snd h
              simpa using this.symm
            · simp [withdraw, get_htlc_data, hd, hl, ha, hst, ht, hh] at h
      · simp [withdraw, get_htlc_data, hd, hl, ha] at h

theorem refund_ok_inv (c : Ctx) (s : Store) (cid : ByteStr)
    (tr : List Action)
    (h : refund c s cid = (Except.ok (), tr)) :
    ∃ d, s cid = some d ∧ d.locked = false ∧ c.auth d.sender = true ∧
      d.status = HTLCStatus.Active ∧ d.timelock ≤ c.timestamp ∧
      tr = refundTrace c cid d := by
  cases hd : s cid with
  | none => simp [refund, get_htlc_data, hd] at h
  | some d =>
    cases hl : d.locked with
    | true => simp [refund, get_htlc_data, hd, hl] at h
    | false =>
      by_cases ha : c.auth d.sender = true
      · cases hst : d.status with
        | Withdrawn => simp [refund, get_htlc_data, hd, hl, ha, hst] at h
        | Refunded => simp [refund, get_htlc_data, hd, hl, ha, hst] at h
        | Active =>
          by_cases ht : c.timestamp < d.timelock
          · simp [refund, get_htlc_data, hd, hl, ha, hst, ht] at h
          · have hr := refund_spec c s cid d hd hl ha hst (by omega)
            rw [hr] at h
            refine ⟨d, rfl, hl, ha, hst, by omega, ?_⟩
            have := congrArg Prod.snd h
            simpa using this.symm
      · simp [refund, get_htlc_data, hd, hl, ha] at h

theorem applyActions_createTrace (s : Store) (c : Ctx) (i : ByteStr)
    (sender receiver : Addr) (amount : Int) (hashlock : ByteStr)
    (timelock : Nat) (sd : Int) (k : ByteStr) :
    applyActions s (createTrace c i sender receiver amount hashlock
      timelock sd) k =
      Store.set s i (createdRecord c i sender receiver amount hashlock
        timelock sd) k := by
  rfl

theorem applyActions_withdrawTrace (s : Store) (c : Ctx) (cid : ByteStr)
    (d : HTLCData) (k : ByteStr) :
    applyActions s (withdrawTrace c cid d) k =
      Store.set s cid (withdrawnRecord d) k := by
  by_cases hsd : d.safety_deposit > 0 <;>
    simp [withdrawTrace, applyActions, hsd, Store.set] <;>
    split <;> rfl

theorem applyActions_refundTrace (s : Store) (c : Ctx) (cid : ByteStr)
    (d : HTLCData) (k : ByteStr) :
    applyActions s (refundTrace c cid d) k =
      Store.set s cid (refundedRecord d) k := by
  simp [refundTrace, applyActions, Store.set]
  split <;> rfl

/-! ## Error branches -/

theorem withdraw_not_found (c : Ctx) (s : Store) (cid pre : ByteStr)
    (hd : s cid = none) :
    withdraw c s cid pre = (Except.error HTLCError.ContractNotFound, []) := by
  simp [withdraw, get_htlc_data, hd]

theorem refund_not_found (c : Ctx) (s : Store) (cid : ByteStr)
    (hd : s cid = none) :
    refund c s cid = (Except.error HTLCError.ContractNotFound, []) := by
  simp [refund, get_htlc_data, hd]

theorem withdraw_reentrancy (c : Ctx) (s : Store) (cid pre : ByteStr)
    (d : HTLCData) (hd : s cid = some d) (hl : d.locked = true) :
    withdraw c s cid pre =
      (Except.error HTLCError.ReentrancyDetected, []) := by
  simp [withdraw, get_htlc_data, hd, hl]

theorem refund_reentrancy (c : Ctx) (s : Store) (cid : ByteStr)
    (d : HTLCData) (hd : s cid = some d) (hl : d.locked = true) :
    refund c s cid = (Except.error HTLCError.ReentrancyDetected, []) := by
  simp [refund, get_htlc_data, hd, hl]

theorem withdraw_already (c : Ctx) (s : Store) (cid pre : ByteStr)
    (d : HTLCData) (hd : s cid = some d) (hl : d.locked = false)
    (ha : c.auth d.receiver = true) :
    (d.status = HTLCStatus.Withdrawn →
      withdraw c s cid pre = (Except.error HTLCError.AlreadyWithdrawn,
        [Action.requireAuth d.receiver])) ∧
    (d.status = HTLCStatus.Refunded →
      withdraw c s cid pre = (Except.error HTLCError.AlreadyRefunded,
        [Action.requireAuth d.receiver])) := by
  constructor <;> intro hst <;>
    simp [withdraw, get_htlc_data, hd, hl, ha, hst]

theorem refund_already (c : Ctx) (s : Store) (cid : ByteStr)
    (d : HTLCData) (hd : s cid = some d) (hl : d.locked = false)
    (ha : c.auth d.sender = true) :
    (d.status = HTLCStatus.Withdrawn →
      refund c s cid = (Except.error HTLCError.AlreadyWithdrawn,
        [Action.requireAuth d.sender])) ∧
    (d.status = HTLCStatus.Refunded →
      refund c s cid = (Except.error HTLCError.AlreadyRefunded,
        [Action.requireAuth d.sender])) := by
  constructor <;> intro hst <;>
    simp [refund, get_htlc_data, hd, hl, ha, hst]

theorem withdraw_expired (c : Ctx) (s : Store) (cid pre : ByteStr)
    (d : HTLCData) (hd : s cid = some d) (hl : d.locked = false)
    (ha : c.auth d.receiver = true) (hst : d.status = HTLCStatus.Active)
    (ht : d.timelock ≤ c.timestamp) :
    withdraw c s cid pre = (Except.error HTLCError.TimelockExpired,
      [Action.requireAuth d.receiver]) := by
  simp [withdraw, get_htlc_data, hd, hl, ha, hst, ht]

theorem refund_not_expired (c : Ctx) (s : Store) (cid : ByteStr)
    (d : HTLCData) (hd : s cid = some d) (hl : d.locked = false)
    (ha : c.auth d.sender = true) (hst : d.status = HTLCStatus.Active)
    (ht : c.timestamp < d.timelock) :
    refund c s cid = (Except.error HTLCError.TimelockNotExpired,
      [Action.requireAuth d.sender]) := by
  simp [refund, get_htlc_data, hd, hl, ha, hst, ht]

theorem withdraw_bad_preimage (c : Ctx) (s : Store) (cid pre : ByteStr)
    (d : HTLCData) (hd : s cid = some d) (hl : d.locked = false)
    (ha : c.auth d.receiver = true) (hst : d.status = HTLCStatus.Active)
    (ht : c.timestamp < d.timelock) (hh : c.sha256 pre ≠ d.hashlock) :
    withdraw c s cid pre = (Except.error HTLCError.InvalidPreimage,
      [Action.requireAuth d.receiver]) := by
  simp [withdraw, get_htlc_data, hd, hl, ha, hst, Nat.not_le.mpr ht, hh]

/-- No operation changes a record already resolved: a non-Active record is
left untouched by every later `create`, `withdraw` or `refund`. -/
theorem runOp_frame (c : Ctx) (s : Store) (id : ByteStr) (d : HTLCData)
    (hd : s id = some d) (hst : d.status ≠ HTLCStatus.Active) :
    ∀ op, runOp c s op id = some d := by
  intro op
  cases op with
  | create sender receiver amount hashlock timelock sd =>
    rcases hc : create_htlc c s sender receiver amount hashlock timelock sd
      with ⟨res, tr⟩
    cases res with
    | error e =>
      simp [runOp, runResult, hc, hd]
    | ok i =>
      obtain ⟨-, -, -, -, -, hfresh, -, htr⟩ :=
        create_ok_inv c s sender receiver amount hashlock timelock sd i tr hc
      have hne : id ≠ i := by
        intro he
        rw [he, hfresh] at hd
        exact Option.noConfusion hd
      simp only [runOp, runResult, hc, htr]
      rw [applyActions_createTrace]
      simp [Store.set, hne, hd]
  | withdraw cid pre =>
    rcases hc : withdraw c s cid pre with ⟨res, tr⟩
    cases res with
    | error e =>
      simp [runOp, runResult, hc, hd]
    | ok u =>
      obtain ⟨d', hd', -, -, hst', -, -, htr⟩ :=
        withdraw_ok_inv c s cid pre tr (by rw [hc])
      have hne : id ≠ cid := by
        intro he
        rw [he, hd'] at hd
        exact hst (by rw [Option.some.injEq] at hd; rw [← hd]; exact hst')
      simp only [runOp, runResult, hc, htr]
      rw [applyActions_withdrawTrace]
      simp [Store.set, hne, hd]
  | refund cid =>
    rcases hc : refund c s cid with ⟨res, tr⟩
    cases res with
    | error e =>
      simp [runOp, runResult, hc, hd]
    | ok u =>
      obtain ⟨d', hd', -, -, hst', -, htr⟩ :=
        refund_ok_inv c s cid tr (by rw [hc])
      have hne : id ≠ cid := by
        intro he
        rw [he, hd'] at hd
        exact hst (by rw [Option.some.injEq] at hd; rw [← hd]; exact hst')
      simp only [runOp, runResult, hc, htr]
      rw [applyActions_refundTrace]
      simp [Store.set, hne, hd]

theorem beBytes_length (w : Nat) : ∀ n, (beBytes w n).length = w := by
  induction w with
  | zero => intro n; rfl
  | succ w ih =>
    intro n
    unfold beBytes
    simp [ih]

theorem beBytes_inj (w : Nat) :
    ∀ m n, m < 256 ^ w → n < 256 ^ w → beBytes w m = beBytes w n →
      m = n := by
  induction w with
  | zero =>
    intro m n hm hn _
    simp [pow_zero] at hm hn
    omega
  | succ w ih =>
    intro m n hm hn h
    unfold beBytes at h
    obtain ⟨h1, h2⟩ := List.append_inj h (by rw [beBytes_length, beBytes_length])
    have hdm : m / 256 < 256 ^ w := by
      rw [Nat.div_lt_iff_lt_mul (by omega)]
      calc m < 256 ^ (w + 1) := hm
        _ = 256 ^ w * 256 := by ring
    have hdn : n / 256 < 256 ^ w := by
      rw [Nat.div_lt_iff_lt_mul (by omega)]
      calc n < 256 ^ (w + 1) := hn
        _ = 256 ^ w * 256 := by ring
    have hq := ih (m / 256) (n / 256) hdm hdn h1
    have hr : m % 256 = n % 256 := by
      simpa using h2
    omega

theorem u64be_inj (t t' : Nat) (ht : t < 2 ^ 64) (ht' : t' < 2 ^ 64)
    (h : u64be t = u64be t') : t = t' := by
  unfold u64be at h
  have h8 : (256 : Nat) ^ 8 = 2 ^ 64 := by norm_num
  have := beBytes_inj 8 (t % 2 ^ 64) (t' % 2 ^ 64)
    (by rw [h8]; exact Nat.mod_lt _ (by norm_num))
    (by rw [h8]; exact Nat.mod_lt _ (by norm_num)) h
  rw [Nat.mod_eq_of_lt ht, Nat.mod_eq_of_lt ht'] at this
  exact this

theorem create_err_inv (c : Ctx) (s : Store) (sender receiver : Addr)
    (amount : Int) (hashlock : ByteStr) (timelock : Nat) (sd : Int)
    (e : HTLCError) (tr : List Action)
    (h : create_htlc c s sender receiver amount hashlock timelock sd =
      (Except.error e, tr)) :
    tr = [Action.requireAuth sender] := by
  unfold create_htlc at h
  by_cases hauth : c.auth sender = true
  · rw [if_pos hauth] at h
    by_cases h1 : amount ≤ 0
    · rw [if_pos h1] at h; exact (congrArg Prod.snd h).symm
    · rw [if_neg h1] at h
      by_cases h2 : sd < 0
      · rw [if_pos h2] at h; exact (congrArg Prod.snd h).symm
      · rw [if_neg h2] at h
        by_cases h3 : timelock ≤ c.timestamp
        · rw [if_pos h3] at h; exact (congrArg Prod.snd h).symm
        · rw [if_neg h3] at h
          by_cases h4 : (s (generate_contract_id c sender receiver amount
              hashlock timelock c.timestamp)).isSome
          · rw [if_pos h4] at h; exact (congrArg Prod.snd h).symm
          · rw [if_neg h4] at h
            by_cases h5 : c.balance sender < amount + sd
            · rw [if_pos h5] at h; exact (congrArg Prod.snd h).symm
            · rw [if_neg h5] at h; simp at h
  · rw [if_neg hauth] at h; exact (congrArg Prod.snd h).symm

/-- Any record property established by `createdRecord` and preserved by
the two terminal transitions is an invariant of every reachable store. -/
theorem runOp_preserves (c : Ctx) (s : Store) (P : HTLCData → Prop)
    (hC : ∀ i sender receiver amount hashlock timelock sd,
      P (createdRecord c i sender receiver amount hashlock timelock sd))
    (hW : ∀ d, P d → P (withdrawnRecord d))
    (hR : ∀ d, P d → P (refundedRecord d))
    (hs : ∀ k e, s k = some e → P e) (op : Op) :
    ∀ k e, runOp c s op k = some e → P e := by
  intro k e hk
  cases op with
  | create sender receiver amount hashlock timelock sd =>
    rcases hc : create_htlc c s sender receiver amount hashlock timelock sd
      with ⟨res, tr⟩
    cases res with
    | error er =>
      simp only [runOp, runResult, hc] at hk
      exact hs k e hk
    | ok i =>
      obtain ⟨-, -, -, -, -, -, -, htr⟩ :=
        create_ok_inv c s sender receiver amount hashlock timelock sd i tr hc
      simp only [runOp, runResult, hc, htr] at hk
      rw [applyActions_createTrace] at hk
      simp only [Store.set] at hk
      split at hk
      · rw [Option.some.injEq] at hk
        rw [← hk]
        exact hC i sender receiver amount hashlock timelock sd
      · exact hs k e hk
  | withdraw cid pre =>
    rcases hc : withdraw c s cid pre with ⟨res, tr⟩
    cases res with
    | error er =>
      simp only [runOp, runResult, hc] at hk
      exact hs k e hk
    | ok u =>
      obtain ⟨d', hd', -, -, -, -, -, htr⟩ :=
        withdraw_ok_inv c s cid pre tr (by rw [hc])
      simp only [runOp, runResult, hc, htr] at hk
      rw [applyActions_withdrawTrace] at hk
      simp only [Store.set] at hk
      split at hk
      · rw [Option.some.injEq] at hk
        rw [← hk]
        exact hW d' (hs cid d' hd')
      · exact hs k e hk
  | refund cid =>
    rcases hc : refund c s cid with ⟨res, tr⟩
    cases res with
    | error er =>
      simp only [runOp, runResult, hc] at hk
      exact hs k e hk
    | ok u =>
      obtain ⟨d', hd', -, -, -, -, htr⟩ :=
        refund_ok_inv c s cid tr (by rw [hc])
      simp only [runOp, runResult, hc, htr] at hk
      rw [applyActions_refundTrace] at hk
      simp only [Store.set] at hk
      split at hk
      · rw [Option.some.injEq] at hk
        rw [← hk]
        exact hR d' (hs cid d' hd')
      · exact hs k e hk

/-- Every store reachable by one operation from an all-unlocked store is
all-unlocked: the engine persists `locked = true` only inside a call,
never at rest. -/
theorem runOp_preserves_unlocked (c : Ctx) (s : Store)
    (hs : ∀ k e, s k = some e → e.locked = false) (op : Op) :
    ∀ k e, runOp c s op k = some e → e.locked = false :=
  runOp_preserves c s (fun d => d.locked = false)
    (fun _ _ _ _ _ _ _ => rfl) (fun _ _ => rfl) (fun _ _ => rfl) hs op

/-! ## Claims -/

/-- C1: for every escrow record at rest, at most one of withdraw and
refund ever succeeds: once the status is Withdrawn neither operation can
succeed again and an authorized attempt fails with `AlreadyWithdrawn`;
once Refunded they fail with `AlreadyRefunded`; and no operation ever
moves a record out of Withdrawn or Refunded. -/
theorem claim_C1_exclusivity (c : Ctx) (s : Store) (id pre : ByteStr)
    (d : HTLCData) (hd : s id = some d) (hl : d.locked = false) :
    (d.status = HTLCStatus.Withdrawn →
      (withdraw c s id pre).1 ≠ Except.ok () ∧
      (refund c s id).1 ≠ Except.ok () ∧
      (c.auth d.receiver = true →
        (withdraw c s id pre).1 = Except.error HTLCError.AlreadyWithdrawn) ∧
      (c.auth d.sender = true →
        (refund c s id).1 = Except.error HTLCError.AlreadyWithdrawn)) ∧
    (d.status = HTLCStatus.Refunded →
      (withdraw c s id pre).1 ≠ Except.ok () ∧
      (refund c s id).1 ≠ Except.ok () ∧
      (c.auth d.receiver = true →
        (withdraw c s id pre).1 = Except.error HTLCError.AlreadyRefunded) ∧
      (c.auth d.sender = true →
        (refund c s id).1 = Except.error HTLCError.AlreadyRefunded)) ∧
    (d.status ≠ HTLCStatus.Active → ∀ op, runOp c s op id = some d) := by
  refine ⟨?_, ?_, ?_⟩
  · intro hst
    refine ⟨?_, ?_, ?_, ?_⟩
    · intro hok
      obtain ⟨d', hd', -, -, hst', -, -, -⟩ :=
        withdraw_ok_inv c s id pre (withdraw c s id pre).2
          (by rw [← hok])
      rw [hd] at hd'
      simp_all
    · intro hok
      obtain ⟨d', hd', -, -, hst', -, -⟩ :=
        refund_ok_inv c s id (refund c s id).2
          (by rw [← hok])
      rw [hd] at hd'
      simp_all
    · intro ha
      rw [(withdraw_already c s id pre d hd hl ha).1 hst]
    · intro ha
      rw [(refund_already c s id d hd hl ha).1 hst]
  · intro hst
    refine ⟨?_, ?_, ?_, ?_⟩
    · intro hok
      obtain ⟨d', hd', -, -, hst', -, -, -⟩ :=
        withdraw_ok_inv c s id pre (withdraw c s id pre).2
          (by rw [← hok])
      rw [hd] at hd'
      simp_all
    · intro hok
      obtain ⟨d', hd', -, -, hst', -, -⟩ :=
        refund_ok_inv c s id (refund c s id).2
          (by rw [← hok])
      rw [hd] at hd'
      simp_all
    · intro ha
      rw [(withdraw_already c s id pre d hd hl ha).2 hst]
    · intro ha
      rw [(refund_already c s id d hd hl ha).2 hst]
  · intro hst op
    exact runOp_frame c s id d hd hst op

theorem claim_C1_exclusivity_witness :
    (withdraw ctx0 storeW [1] [4]).1 =
      Except.error HTLCError.AlreadyWithdrawn ∧
    (refund ctx0 storeR [1]).1 =
      Except.error HTLCError.AlreadyRefunded := by
  constructor
  · exact ((claim_C1_exclusivity ctx0 storeW [1] [4] recW rfl rfl).1
      rfl).2.2.1 rfl
  · exact ((claim_C1_exclusivity ctx0 storeR [1] [4] recR rfl rfl).2.1
      rfl).2.2.2 rfl

/-- C2: for an Active record at rest with the two parties authorized,
withdraw's time check fails with the deadline-expired error exactly when
the call time is at or past the deadline, refund's time check fails with
the deadline-not-expired error exactly when the call time is strictly
before the deadline (and refund succeeds exactly when it is not), and the
two failure conditions are complementary: no instant triggers both and
none triggers neither. -/
theorem claim_C2_temporal (c : Ctx) (s : Store) (id pre : ByteStr)
    (d : HTLCData) (hd : s id = some d) (hl : d.locked = false)
    (hst : d.status = HTLCStatus.Active)
    (har : c.auth d.receiver = true) (has : c.auth d.sender = true) :
    ((withdraw c s id pre).1 = Except.error HTLCError.TimelockExpired ↔
      d.timelock ≤ c.timestamp) ∧
    ((refund c s id).1 = Except.error HTLCError.TimelockNotExpired ↔
      c.timestamp < d.timelock) ∧
    ((refund c s id).1 = Except.ok () ↔ d.timelock ≤ c.timestamp) ∧
    ((withdraw c s id pre).1 = Except.error HTLCError.TimelockExpired ↔
      ¬ (refund c s id).1 = Except.error HTLCError.TimelockNotExpired) := by
  by_cases ht : d.timelock ≤ c.timestamp
  · rw [withdraw_expired c s id pre d hd hl har hst ht,
      refund_spec c s id d hd hl has hst ht]
    refine ⟨by simp [ht], by simp; omega, by simp [ht], by simp⟩
  · rw [refund_not_expired c s id d hd hl has hst (by omega)]
    by_cases hh : c.sha256 pre = d.hashlock
    · rw [withdraw_spec c s id pre d hd hl har hst (by omega) hh]
      refine ⟨by simp; omega, by simp; omega, by simp; omega, by simp⟩
    · rw [withdraw_bad_preimage c s id pre d hd hl har hst (by omega) hh]
      refine ⟨by simp; omega, by simp; omega, by simp; omega, by simp⟩

theorem claim_C2_temporal_witness :
    (refund ctx0 store1 [1]).1 =
      Except.error HTLCError.TimelockNotExpired :=
  (claim_C2_temporal ctx0 store1 [1] [4] recActive rfl rfl rfl rfl
    rfl).2.1.mpr (by decide)

/-- C3: for an authorized Active record at rest before its deadline,
withdraw succeeds exactly for the secrets whose hash equals the record's
hashlock, and any other secret is rejected with `InvalidPreimage`. -/
theorem claim_C3_preimage (c : Ctx) (s : Store) (id pre : ByteStr)
    (d : HTLCData) (hd : s id = some d) (hl : d.locked = false)
    (hst : d.status = HTLCStatus.Active) (ha : c.auth d.receiver = true)
    (ht : c.timestamp < d.timelock) :
    ((withdraw c s id pre).1 = Except.ok () ↔
      c.sha256 pre = d.hashlock) ∧
    (c.sha256 pre ≠ d.hashlock →
      (withdraw c s id pre).1 = Except.error HTLCError.InvalidPreimage) := by
  by_cases hh : c.sha256 pre = d.hashlock
  · rw [withdraw_spec c s id pre d hd hl ha hst ht hh]
    exact ⟨by simp [hh], fun hne => absurd hh hne⟩
  · rw [withdraw_bad_preimage c s id pre d hd hl ha hst ht hh]
    exact ⟨by simp [hh], fun _ => rfl⟩

theorem claim_C3_preimage_witness :
    (withdraw ctx0 store1 [1] [4]).1 = Except.ok () ∧
    (withdraw ctx0 store1 [1] [5]).1 =
      Except.error HTLCError.InvalidPreimage := by
  constructor
  · exact (claim_C3_preimage ctx0 store1 [1] [4] recActive rfl rfl rfl
      rfl (by decide)).1.mpr rfl
  · exact (claim_C3_preimage ctx0 store1 [1] [5] recActive rfl rfl rfl
      rfl (by decide)).2 (by decide)

/-- C4: over either terminal path the engine pays out exactly
`amount + safetyDeposit`: a successful withdraw performs one transfer of
`amount` to the receiver followed, exactly when the deposit is positive,
by one transfer of the deposit to the sender; a successful refund performs
one combined transfer of `amount + safetyDeposit` to the sender; in both
cases the total leaving engine custody is `amount + safetyDeposit`
(for withdraw, under the at-rest invariant that the deposit is
non-negative). -/
theorem claim_C4_conservation (c : Ctx) (s : Store) (id pre : ByteStr) :
    (∀ tr, withdraw c s id pre = (Except.ok (), tr) →
      ∃ d, s id = some d ∧
        transfersOf tr =
          Action.transfer c.contractAddr d.receiver d.amount ::
          (if d.safety_deposit > 0 then
            [Action.transfer c.contractAddr d.sender d.safety_deposit]
          else []) ∧
        (0 ≤ d.safety_deposit →
          outTotal c tr = d.amount + d.safety_deposit)) ∧
    (∀ tr, refund c s id = (Except.ok (), tr) →
      ∃ d, s id = some d ∧
        transfersOf tr =
          [Action.transfer c.contractAddr d.sender
            (d.amount + d.safety_deposit)] ∧
        outTotal c tr = d.amount + d.safety_deposit) := by
  constructor
  · intro tr h
    obtain ⟨d, hd, -, -, -, -, -, htr⟩ := withdraw_ok_inv c s id pre tr h
    refine ⟨d, hd, ?_, ?_⟩
    · by_cases hsd : d.safety_deposit > 0 <;>
        simp [htr, withdrawTrace, transfersOf, hsd]
    · intro h0
      by_cases hsd : d.safety_deposit > 0
      · simp [htr, withdrawTrace, outTotal, hsd]
      · simp [htr, withdrawTrace, outTotal, hsd]
        omega
  · intro tr h
    obtain ⟨d, hd, -, -, -, -, htr⟩ := refund_ok_inv c s id tr h
    refine ⟨d, hd, ?_, ?_⟩
    · simp [htr, refundTrace, transfersOf]
    · simp [htr, refundTrace, outTotal]

theorem claim_C4_conservation_witness :
    outTotal ctx0 (withdraw ctx0 store1 [1] [4]).2 = 55 ∧
    outTotal ctx1 (refund ctx1 store1 [1]).2 = 55 := by
  constructor
  · obtain ⟨d, hd, -, htot⟩ :=
      (claim_C4_conservation ctx0 store1 [1] [4]).1
        (withdraw ctx0 store1 [1] [4]).2 rfl
    have hda : d = recActive := Option.some.inj (hd.symm.trans rfl)
    rw [hda] at htot
    simpa [recActive] using htot (by decide)
  · obtain ⟨d, hd, -, htot⟩ :=
      (claim_C4_conservation ctx1 store1 [1] [4]).2
        (refund ctx1 store1 [1]).2 rfl
    have hda : d = recActive := Option.some.inj (hd.symm.trans rfl)
    rw [hda] at htot
    simpa [recActive] using htot

/-- C5: with the caller authenticated as the sender, create rejects
`amount <= 0` with `InvalidAmount`, a negative safety deposit with
`InvalidSafetyDeposit` (spec name; the source aborts with "Invalid safety
deposit"), and `deadline <= currentTime` with `InvalidTimelock` (the
spec's `InvalidDeadline`); every failing create performs no store write,
no transfer, and leaves the store unchanged. -/
theorem claim_C5_create_validation (c : Ctx) (s : Store)
    (sender receiver : Addr) (amount : Int) (hashlock : ByteStr)
    (timelock : Nat) (sd : Int) (hauth : c.auth sender = true) :
    (amount ≤ 0 →
      create_htlc c s sender receiver amount hashlock timelock sd =
        (Except.error HTLCError.InvalidAmount,
          [Action.requireAuth sender])) ∧
    (0 < amount → sd < 0 →
      create_htlc c s sender receiver amount hashlock timelock sd =
        (Except.error HTLCError.InvalidSafetyDeposit,
          [Action.requireAuth sender])) ∧
    (0 < amount → 0 ≤ sd → timelock ≤ c.timestamp →
      create_htlc c s sender receiver amount hashlock timelock sd =
        (Except.error HTLCError.InvalidTimelock,
          [Action.requireAuth sender])) ∧
    (∀ e tr,
      create_htlc c s sender receiver amount hashlock timelock sd =
        (Except.error e, tr) →
      hasWrite tr = false ∧ hasTransfer tr = false ∧
      runResult s
        (create_htlc c s sender receiver amount hashlock timelock sd) =
        s) := by
  refine ⟨?_, ?_, ?_, ?_⟩
  · intro h1
    unfold create_htlc
    rw [if_pos hauth, if_pos h1]
  · intro h1 h2
    unfold create_htlc
    rw [if_pos hauth, if_neg (by omega), if_pos h2]
  · intro h1 h2 h3
    unfold create_htlc
    rw [if_pos hauth, if_neg (by omega), if_neg (by omega), if_pos h3]
  · intro e tr h
    have htr := create_err_inv c s sender receiver amount hashlock
      timelock sd e tr h
    subst htr
    exact ⟨rfl, rfl, runResult_error s _ e (by rw [h])⟩

theorem claim_C5_create_validation_witness :
    create_htlc ctx0 Store.empty 2 3 0 [0, 4] 200 5 =
      (Except.error HTLCError.InvalidAmount, [Action.requireAuth 2]) :=
  (claim_C5_create_validation ctx0 Store.empty 2 3 0 [0, 4] 200 5 rfl).1
    (by decide)

/-- C8: withdraw and refund abort with `ReentrancyDetected` on a record
whose guard is raised; on success their full action traces are exactly
`withdrawTrace` / `refundTrace`, in which the write persisting
`locked = true` precedes every fund transfer and the finalizing write
(terminal status with `locked = false`) follows them all; and every store
whose records are all unlocked stays all-unlocked across every operation,
so records at rest always have `locked = false`. -/
theorem claim_C8_reentrancy (c : Ctx) (s : Store) (id pre : ByteStr) :
    (∀ d, s id = some d → d.locked = true →
      withdraw c s id pre =
        (Except.error HTLCError.ReentrancyDetected, []) ∧
      refund c s id = (Except.error HTLCError.ReentrancyDetected, [])) ∧
    (∀ tr, withdraw c s id pre = (Except.ok (), tr) →
      ∃ d, s id = some d ∧ tr = withdrawTrace c id d) ∧
    (∀ tr, refund c s id = (Except.ok (), tr) →
      ∃ d, s id = some d ∧ tr = refundTrace c id d) ∧
    (∀ op, (∀ k e, s k = some e → e.locked = false) →
      ∀ k e, runOp c s op k = some e → e.locked = false) := by
  refine ⟨?_, ?_, ?_, ?_⟩
  · intro d hd hl
    exact ⟨withdraw_reentrancy c s id pre d hd hl,
      refund_reentrancy c s id d hd hl⟩
  · intro tr h
    obtain ⟨d, hd, -, -, -, -, -, htr⟩ := withdraw_ok_inv c s id pre tr h
    exact ⟨d, hd, htr⟩
  · intro tr h
    obtain ⟨d, hd, -, -, -, -, htr⟩ := refund_ok_inv c s id tr h
    exact ⟨d, hd, htr⟩
  · intro op hs
    exact runOp_preserves_unlocked c s hs op

theorem claim_C8_reentrancy_witness :
    withdraw ctx0 storeL [1] [4] =
      (Except.error HTLCError.ReentrancyDetected, []) ∧
    refund ctx0 storeL [1] =
      (Except.error HTLCError.ReentrancyDetected, []) :=
  (claim_C8_reentrancy ctx0 storeL [1] [4]).1 recL rfl rfl

/-- C6: for one parameter set, ids derived at two distinct u64 timestamps
differ (the packed preimages differ in the trailing timestamp bytes, so
the ids differ under the collision-freedom assumption on Keccak-256); and
after a successful create, a second create with identical parameters at
the identical clock derives the identical id and fails `AlreadyExists`
there — the sole collision policy — committing no record (its whole trace
is the authorization check) and leaving the store unchanged. -/
theorem claim_C6_uniqueness (c : Ctx) (s : Store) (sender receiver : Addr)
    (amount : Int) (hashlock : ByteStr) (timelock : Nat) (sd : Int) :
    (∀ t t', t < 2 ^ 64 → t' < 2 ^ 64 → t ≠ t' →
      (∀ x y, c.keccak256 x = c.keccak256 y → x = y) →
      generate_contract_id c sender receiver amount hashlock timelock t ≠
        generate_contract_id c sender receiver amount hashlock timelock
          t') ∧
    (∀ i tr,
      create_htlc c s sender receiver amount hashlock timelock sd =
        (Except.ok i, tr) →
      i = generate_contract_id c sender receiver amount hashlock timelock
        c.timestamp ∧
      create_htlc c (applyActions s tr) sender receiver amount hashlock
        timelock sd =
        (Except.error HTLCError.ContractAlreadyExists,
          [Action.requireAuth sender]) ∧
      runResult (applyActions s tr)
        (create_htlc c (applyActions s tr) sender receiver amount hashlock
          timelock sd) = applyActions s tr) := by
  constructor
  · intro t t' ht ht' hne hk heq
    apply hne
    simp only [generate_contract_id] at heq
    have hp := hk _ _ heq
    have hu : u64be t = u64be t' := by
      have := List.append_cancel_left hp
      exact this
    exact u64be_inj t t' ht ht' hu
  · intro i tr h
    obtain ⟨hauth, h1, h2, h3, hi, hfresh, h5, htr⟩ :=
      create_ok_inv c s sender receiver amount hashlock timelock sd i tr h
    have hs2 : applyActions s tr i =
        some (createdRecord c i sender receiver amount hashlock timelock
          sd) := by
      rw [htr, applyActions_createTrace]
      simp [Store.set]
    have h2nd : create_htlc c (applyActions s tr) sender receiver amount
        hashlock timelock sd =
        (Except.error HTLCError.ContractAlreadyExists,
          [Action.requireAuth sender]) := by
      unfold create_htlc
      rw [if_pos hauth, if_neg (by omega), if_neg (by omega),
        if_neg (by omega), if_pos (by rw [← hi, hs2]; rfl)]
    exact ⟨hi, h2nd,
      runResult_error _ _ HTLCError.ContractAlreadyExists (by rw [h2nd])⟩

theorem claim_C6_uniqueness_witness :
    generate_contract_id ctx0 2 3 50 [0, 4] 200 100 ≠
      generate_contract_id ctx0 2 3 50 [0, 4] 200 101 ∧
    create_htlc ctx0
        (applyActions Store.empty
          (create_htlc ctx0 Store.empty 2 3 50 [0, 4] 200 5).2)
        2 3 50 [0, 4] 200 5 =
      (Except.error HTLCError.ContractAlreadyExists,
        [Action.requireAuth 2]) := by
  constructor
  · exact (claim_C6_uniqueness ctx0 Store.empty 2 3 50 [0, 4] 200 5).1
      100 101 (by decide) (by decide) (by decide) (fun x y h => h)
  · exact ((claim_C6_uniqueness ctx0 Store.empty 2 3 50 [0, 4] 200 5).2
      (generate_contract_id ctx0 2 3 50 [0, 4] 200 100)
      (create_htlc ctx0 Store.empty 2 3 50 [0, 4] 200 5).2 rfl).2.1

/-- C7: the id is a pure function of exactly (sender, receiver, amount,
hashlock, deadline, createdAt) — the derivation takes neither the asset
nor the safety deposit — equal to Keccak-256 of the concatenation, in
that order, of each principal normalized to 32 bytes by SHA-256 hashing
its native (XDR) encoding, the integers as big-endian fixed-width bytes,
and the hashlock as-is; and the id a successful create returns is that
function of its arguments and the creation time, whatever the safety
deposit. -/
theorem claim_C7_id_derivation (c : Ctx) (sender receiver : Addr)
    (amount : Int) (hashlock : ByteStr) (timelock createdAt : Nat) :
    generate_contract_id c sender receiver amount hashlock timelock
      createdAt =
      deriveIdSpec c sender receiver amount hashlock timelock createdAt ∧
    (∀ s sd i tr,
      create_htlc c s sender receiver amount hashlock timelock sd =
        (Except.ok i, tr) →
      i = deriveIdSpec c sender receiver amount hashlock timelock
        c.timestamp) := by
  constructor
  · simp [generate_contract_id, deriveIdSpec, address_to_bytes32,
      List.append_assoc]
  · intro s sd i tr h
    obtain ⟨-, -, -, -, hi, -, -, -⟩ :=
      create_ok_inv c s sender receiver amount hashlock timelock sd i tr h
    rw [hi]
    simp [generate_contract_id, deriveIdSpec, address_to_bytes32,
      List.append_assoc]

theorem claim_C7_id_derivation_witness :
    generate_contract_id ctx0 2 3 50 [0, 4] 200 100 =
      deriveIdSpec ctx0 2 3 50 [0, 4] 200 100 :=
  (claim_C7_id_derivation ctx0 2 3 50 [0, 4] 200 100).2
    Store.empty 5 (generate_contract_id ctx0 2 3 50 [0, 4] 200 100)
    (create_htlc ctx0 Store.empty 2 3 50 [0, 4] 200 5).2 rfl

/-- C9: the read-only operations perform no action at all (their traces
are empty, so they mutate nothing and emit nothing); on an unknown id,
get and status fail `NotFound`, exists returns false, and withdraw fails
`NotFound` with an empty trace — before any authorization check, transfer
or write. -/
theorem claim_C9_readonly (c : Ctx) (s : Store) (id pre : ByteStr) :
    (get_htlc s id).2 = [] ∧ (contract_exists s id).2 = [] ∧
    (get_status s id).2 = [] ∧
    (s id = none →
      (get_htlc s id).1 = Except.error HTLCError.ContractNotFound ∧
      (get_status s id).1 = Except.error HTLCError.ContractNotFound ∧
      (contract_exists s id).1 = false ∧
      withdraw c s id pre =
        (Except.error HTLCError.ContractNotFound, [])) := by
  refine ⟨?_, rfl, ?_, ?_⟩
  · cases h : s id <;> simp [get_htlc, get_htlc_data, h]
  · cases h : s id <;> simp [get_status, get_htlc_data, h]
  · intro h
    refine ⟨?_, ?_, ?_, withdraw_not_found c s id pre h⟩ <;>
      simp [get_htlc, get_status, contract_exists, get_htlc_data, h]

theorem claim_C9_readonly_witness :
    (get_htlc Store.empty [2]).1 =
      Except.error HTLCError.ContractNotFound ∧
    (get_status Store.empty [2]).1 =
      Except.error HTLCError.ContractNotFound ∧
    (contract_exists Store.empty [2]).1 = false ∧
    withdraw ctx0 Store.empty [2] [4] =
      (Except.error HTLCError.ContractNotFound, []) :=
  (claim_C9_readonly ctx0 Store.empty [2] [4]).2.2.2 rfl

/-- C10: create takes no asset argument; the record it persists always
carries the one fixed native-token address returned by the engine's
internal helper, and the all-records-reference-the-native-token property
is an invariant preserved by every operation. -/
theorem claim_C10_native_token (c : Ctx) (s : Store) :
    (∀ sender receiver amount hashlock timelock sd i tr,
      create_htlc c s sender receiver amount hashlock timelock sd =
        (Except.ok i, tr) →
      ∃ d, applyActions s tr i = some d ∧
        d.token_address = get_native_token_address c) ∧
    (∀ op,
      (∀ k d, s k = some d →
        d.token_address = get_native_token_address c) →
      ∀ k d, runOp c s op k = some d →
        d.token_address = get_native_token_address c) := by
  constructor
  · intro sender receiver amount hashlock timelock sd i tr h
    obtain ⟨-, -, -, -, -, -, -, htr⟩ :=
      create_ok_inv c s sender receiver amount hashlock timelock sd i tr h
    refine ⟨createdRecord c i sender receiver amount hashlock timelock sd,
      ?_, rfl⟩
    rw [htr, applyActions_createTrace]
    simp [Store.set]
  · intro op hs
    exact runOp_preserves c s
      (fun d => d.token_address = get_native_token_address c)
      (fun _ _ _ _ _ _ _ => rfl) (fun _ h => h) (fun _ h => h) hs op

theorem claim_C10_native_token_witness :
    Option.map (fun d => d.token_address)
      (applyActions Store.empty
        (create_htlc ctx0 Store.empty 2 3 50 [0, 4] 200 5).2
        (generate_contract_id ctx0 2 3 50 [0, 4] 200 100)) =
      some (get_native_token_address ctx0) := by
  obtain ⟨d, hd, htok⟩ := (claim_C10_native_token ctx0 Store.empty).1
    2 3 50 [0, 4] 200 5 (generate_contract_id ctx0 2 3 50 [0, 4] 200 100)
    (create_htlc ctx0 Store.empty 2 3 50 [0, 4] 200 5).2 rfl
  rw [hd]
  simp [htok]

end HTLC
